import Mathlib

/-!
Shallow embedding of the graphzer scan orchestrator.

Embedded source files:
* `src/pool/routine.py` — `domain_routine`, `main_routine`
* `src/main.py` — `validate_arguments`, `loop`
* `src/entities/io.py` — `Results`

The collaborators `read_domains` (io/readers.py), `init_domain_tasks` and
`consume_tasks` (pool/tasks.py), `filter_urls` (utils/filters.py),
`write_results` (io/writers.py) and `send_webhook` (utils/webhook.py) are
repository code that is not part of the given sources; they enter the
embedding as components of an environment `Env`.  Any of the per-domain
collaborators may raise, which is modelled by an `Except` result.  Python
exceptions are modelled as `Except.error` with a message string, and side
effects (logging, display, file write, webhook) as an event trace.
-/

/-- A discovered endpoint URL (`graphzer.pool.domain.Url`), identified by its
string form. -/
abbrev Url := String

/-- A Python exception, identified by its message. -/
abbrev Err := String

/-- An opaque handle for the `--file` input file object. -/
abbrev InFile := String

/-- An opaque handle for the `--output-file` file object. -/
abbrev OutFile := String

instance {ε α : Type _} [DecidableEq ε] [DecidableEq α] : DecidableEq (Except ε α) :=
  fun x y =>
    match x, y with
    | Except.error a, Except.error b =>
        if h : a = b then isTrue (h ▸ rfl)
        else isFalse (fun hh => h (Except.error.inj hh))
    | Except.error _, Except.ok _ => isFalse (fun hh => Except.noConfusion hh)
    | Except.ok _, Except.error _ => isFalse (fun hh => Except.noConfusion hh)
    | Except.ok a, Except.ok b =>
        if h : a = b then isTrue (h ▸ rfl)
        else isFalse (fun hh => h (Except.ok.inj hh))

/-- A scan target (`graphzer.pool.domain.Domain`); only its `url` attribute is
read by the embedded code. -/
structure Domain where
  url : String
deriving DecidableEq

/-- One probing task (`graphzer.entities.tasks`); opaque to the orchestrator,
which only hands the collection from the generator to the consumer. -/
structure ScanTask where
  id : Nat
deriving DecidableEq

/-- `TasksList` from `graphzer.entities.tasks`. -/
abbrev TasksList := List ScanTask

/-- `Results = Dict[str, Set[Url]]` from `src/entities/io.py`.  A Python dict
is insertion ordered, so it is embedded as an association list whose key order
is the insertion order. -/
abbrev Results := List (String × Finset Url)

/-- The `argparse.Namespace` built by `argument_builder` in `src/main.py`.
`output_file` is doubly optional: the outer `Option` is attribute presence
(`main_routine` executes `del args.output_file`, after which the attribute is
absent and reading it raises `AttributeError`), the inner `Option` is the
parsed value, `None` when `-o` was not given. -/
structure Namespace where
  domain : Option String
  input_file : Option InFile
  output_file : Option (Option OutFile)
  verbose_mode : Bool
  no_script_mode : Bool
  quiet_mode : Bool
  no_bruteforce_mode : Bool
  precision_mode : Bool
  reduce_mode : Nat
  webhook_url : Option String
deriving DecidableEq

/-- Observable side effects of a run, in program order. -/
inductive Event where
  | logInfo (msg : String)
  | logError (msg : String)
  | displayed (results : Results) (bulk_mode : Bool)
  | wroteFile (file : OutFile) (written : Results)
  | webhookSent (url : String) (payload : Results) (delivered : Bool)
  | fetchedAssets
deriving DecidableEq

/-- The collaborators of `main_routine` that live outside the given sources.
`write_results_mut` is the in-place mutation that `write_results` performs on
the dict object it receives (the caller passes `results.copy()`, so this
mutation acts on a copy).  `webhook_delivered` is the delivery outcome of
`send_webhook`, which is modelled from the spec: the webhook notifier is
fire-and-forget and never raises, so its outcome is a mere boolean recorded in
the event trace. -/
structure Env where
  read_domains : Option InFile → Option String → Bool → List Domain
  init_domain_tasks : Domain → Namespace → Except Err TasksList
  consume_tasks : TasksList → Domain → Except Err (Finset Url)
  filter_urls : Finset Url → Except Err (Finset Url)
  write_results_mut : Results → Results
  webhook_delivered : Bool

/-- The dict `{'domain': domain.url, 'urls': filter_urls(_urls)}` returned by
`domain_routine`. -/
structure DomainResult where
  domain : String
  urls : Finset Url
deriving DecidableEq

/-- `domain_routine` from `src/pool/routine.py`: generate the task list for
the domain, consume it, filter the discovered URL set, and return it keyed by
`domain.url`.  An exception raised by any of the three stages propagates. -/
def domain_routine (env : Env) (domain : Domain) (args : Namespace) :
    Except Err DomainResult :=
  match env.init_domain_tasks domain args with
  | Except.error e => Except.error e
  | Except.ok _tasks =>
    match env.consume_tasks _tasks domain with
    | Except.error e => Except.error e
    | Except.ok _urls =>
      match env.filter_urls _urls with
      | Except.error e => Except.error e
      | Except.ok fus => Except.ok ⟨domain.url, fus⟩

/-- Python dict assignment `d[k] = v`: if the key is present its value is
replaced in place (the key keeps its original position), otherwise the pair is
appended at the end. -/
def dictInsert (d : Results) (k : String) (v : Finset Url) : Results :=
  match d with
  | [] => [(k, v)]
  | (k', v') :: rest =>
      if k' = k then (k, v) :: rest else (k', v') :: dictInsert rest k v

/-- Python dict read `d.get(k)`: the value at the first (only) entry with key
`k`. -/
def dictLookup (d : Results) (k : String) : Option (Finset Url) :=
  match d with
  | [] => none
  | (k', v) :: rest => if k' = k then some v else dictLookup rest k

/-- The key list of a dict, in insertion order. -/
def dictKeys (d : Results) : List String :=
  d.map Prod.fst

/-- Python `dict.copy()`: a shallow copy — a fresh mapping with the same
entries, so key insertions and removals performed on the copy are invisible to
the original. -/
def dictCopy (d : Results) : Results := d

/-- One iteration of the `for domain in domains` loop of `main_routine`
(`src/pool/routine.py`): log the scan start, run `domain_routine` under
`try`, and on any exception log the error and store an empty set under
`domain.url`. -/
def scan_step (env : Env) (args : Namespace) (acc : Results × List Event)
    (domain : Domain) : Results × List Event :=
  let evs := acc.2 ++ [Event.logInfo ("running scan on " ++ domain.url)]
  match domain_routine env domain args with
  | Except.ok r => (dictInsert acc.1 r.domain r.urls, evs)
  | Except.error e =>
      (dictInsert acc.1 domain.url ∅,
       evs ++ [Event.logError ("error scanning domain " ++ domain.url ++ ": " ++ e)])

/-- `main_routine` from `src/pool/routine.py`.  Reads the domain list, returns
`{}` early when it is empty, reads and then deletes `args.output_file`
(reading an absent attribute raises `AttributeError`), scans the domains
sequentially accumulating a `Results` dict, then displays, writes (a shallow
copy) and webhooks (the original mapping) as configured, and returns the
mapping together with the event trace and the mutated namespace. -/
def main_routine (env : Env) (args : Namespace) :
    Except Err (Results × List Event × Namespace) :=
  let ev0 : List Event := [Event.logInfo "starting main routine.."]
  let domains := env.read_domains args.input_file args.domain args.precision_mode
  if domains.isEmpty then
    Except.ok ([], ev0 ++ [Event.logError "no valid domains found to scan"], args)
  else
    match args.output_file with
    | none => Except.error "AttributeError: output_file"
    | some output_file =>
      let args2 : Namespace := { args with output_file := none }
      let ev1 : List Event :=
        ev0 ++ [Event.logInfo ("scanning " ++ toString domains.length ++ " domain(s)")]
      let scanned := domains.foldl (scan_step env args2) ([], ev1)
      let results := scanned.1
      let ev2 := scanned.2
      let ev3 := ev2 ++
        (if args2.quiet_mode then []
         else [Event.displayed results args2.input_file.isSome])
      let ev4 := ev3 ++
        (match output_file with
         | some f => [Event.wroteFile f (env.write_results_mut (dictCopy results))]
         | none => [])
      let ev5 := ev4 ++
        (match args2.webhook_url with
         | some u => [Event.webhookSent u results env.webhook_delivered]
         | none => [])
      Except.ok (results, ev5, args2)

/-- `validate_arguments` from `src/main.py`: rejects a namespace with neither
or both of domain and input file, or with both scanning modes disabled;
otherwise accepts (logging the precision notice). -/
def validate_arguments (args : Namespace) : Bool × List Event :=
  if args.domain.isNone && args.input_file.isNone then
    (false, [Event.logError "no domain or input file provided. Use -d for single domain or -f for domain list file."])
  else if args.domain.isSome && args.input_file.isSome then
    (false, [Event.logError "cannot specify both domain and input file. Use either -d for single domain or -f for domain list file."])
  else if args.no_script_mode && args.no_bruteforce_mode then
    (false, [Event.logError "no scanning mode selected."])
  else
    (true, if args.precision_mode then [Event.logInfo "precision mode enabled"] else [])

/-- `loop` from `src/main.py`, after argument parsing and logger setup (both
out-of-scope I/O): validate the namespace, return `{}` when validation fails,
otherwise fetch assets (out-of-scope startup work, recorded as an event) and
run `main_routine`. -/
def loop (env : Env) (args : Namespace) :
    Except Err (Results × List Event × Namespace) :=
  let v := validate_arguments args
  if v.1 then
    match main_routine env args with
    | Except.ok (results, events, args') =>
        Except.ok (results, v.2 ++ [Event.fetchedAssets] ++ events, args')
    | Except.error e => Except.error e
  else
    Except.ok ([], v.2, args)

/-- The URL set `main_routine` stores for one domain: the filtered set on
success, the empty set when `domain_routine` raises. -/
def domainOutcome (env : Env) (args : Namespace) (d : Domain) : Finset Url :=
  match domain_routine env d args with
  | Except.ok r => r.urls
  | Except.error _ => ∅

/-- The `Results` value accumulated by the scan loop, expressed directly as a
fold of dict insertions. -/
def dictFold (env : Env) (args : Namespace) (ds : List Domain) (init : Results) :
    Results :=
  ds.foldl (fun r d => dictInsert r d.url (domainOutcome env args d)) init

/-- The event trace produced by the scan loop. -/
def scanEvents (env : Env) (args : Namespace) : List Domain → List Event
  | [] => []
  | d :: rest =>
      (Event.logInfo ("running scan on " ++ d.url) ::
        (match domain_routine env d args with
         | Except.ok _ => []
         | Except.error e =>
             [Event.logError ("error scanning domain " ++ d.url ++ ": " ++ e)]))
      ++ scanEvents env args rest

/-- The last domain of `ds` whose `url` is `k`, if any. -/
def lastWithUrl (ds : List Domain) (k : String) : Option Domain :=
  match ds with
  | [] => none
  | d :: rest =>
      match lastWithUrl rest k with
      | some d' => some d'
      | none => if d.url = k then some d else none

/-- Recognizer for display events. -/
def isDisplayed : Event → Bool
  | Event.displayed _ _ => true
  | _ => false

/-- The full event trace of a `main_routine` run that passes the early
empty-domains return (the trace of `src/pool/routine.py` lines 33–83). -/
def runEvents (env : Env) (args : Namespace) (ofv : Option OutFile) : List Event :=
  let ds := env.read_domains args.input_file args.domain args.precision_mode
  let args2 : Namespace := { args with output_file := none }
  let results := dictFold env args2 ds []
  [Event.logInfo "starting main routine..",
   Event.logInfo ("scanning " ++ toString ds.length ++ " domain(s)")]
  ++ scanEvents env args2 ds
  ++ (if args.quiet_mode then []
      else [Event.displayed results args.input_file.isSome])
  ++ (match ofv with
      | some f => [Event.wroteFile f (env.write_results_mut (dictCopy results))]
      | none => [])
  ++ (match args.webhook_url with
      | some u => [Event.webhookSent u results env.webhook_delivered]
      | none => [])

/-- A concrete environment: one healthy domain per `-d` argument, a fixed
three-domain list (the middle one failing at task generation) for `-f` input,
task consumption discovering `<url>/graphql`, an identity filter and a
non-mutating writer. -/
def envW : Env where
  read_domains := fun f d _ =>
    match d with
    | some s => [⟨s⟩]
    | none =>
      match f with
      | some _ => [⟨"https://a.com"⟩, ⟨"https://bad.com"⟩, ⟨"https://b.com"⟩]
      | none => []
  init_domain_tasks := fun d _ =>
    if d.url = "https://bad.com" then Except.error "boom" else Except.ok [⟨1⟩]
  consume_tasks := fun _ d => Except.ok {d.url ++ "/graphql"}
  filter_urls := fun s => Except.ok s
  write_results_mut := fun r => r
  webhook_delivered := true

/-- `envW` with an empty domain source. -/
def envE : Env := { envW with read_domains := fun _ _ _ => [] }

/-- `envW` with a domain source that repeats a url. -/
def envDup : Env :=
  { envW with read_domains := fun _ _ _ =>
      [⟨"https://a.com"⟩, ⟨"https://bad.com"⟩, ⟨"https://a.com"⟩] }

/-- A concrete namespace: single-domain scan, not quiet, `output_file`
attribute present but `-o` not given, webhook configured. -/
def argsW : Namespace where
  domain := some "https://a.com"
  input_file := none
  output_file := some none
  verbose_mode := false
  no_script_mode := false
  quiet_mode := false
  no_bruteforce_mode := false
  precision_mode := true
  reduce_mode := 100
  webhook_url := some "https://hooks.example/x"

/-- `argsW` with file input (three domains under `envW`) and an output file. -/
def argsF : Namespace :=
  { argsW with domain := none, input_file := some "domains.txt",
               output_file := some (some "out.txt") }

/-- `argsW` with both scanning strategies disabled. -/
def argsNB : Namespace :=
  { argsW with no_script_mode := true, no_bruteforce_mode := true }

/-! ### Dictionary lemmas -/

theorem dictLookup_insert (r : Results) (a k : String) (v : Finset Url) :
    dictLookup (dictInsert r a v) k = if a = k then some v else dictLookup r k := by
  induction r with
  | nil => simp [dictInsert, dictLookup]
  | cons p rest ih =>
    obtain ⟨k', v'⟩ := p
    by_cases hk : k' = a
    · subst hk
      by_cases hak : k' = k
      · simp [dictInsert, dictLookup, hak]
      · simp [dictInsert, dictLookup, hak]
    · by_cases hkk : k' = k
      · have hak : a ≠ k := fun hh => hk (hkk.trans hh.symm)
        simp [dictInsert, dictLookup, hk, hkk, hak, Ne.symm hak]
      · simp [dictInsert, dictLookup, hk, hkk, ih]

theorem dictKeys_insert (r : Results) (a : String) (v : Finset Url) :
    dictKeys (dictInsert r a v) =
      if a ∈ dictKeys r then dictKeys r else dictKeys r ++ [a] := by
  induction r with
  | nil => simp [dictInsert, dictKeys]
  | cons p rest ih =>
    obtain ⟨k', v'⟩ := p
    by_cases hk : k' = a
    · subst hk
      simp [dictInsert, dictKeys]
    · have hne : a ≠ k' := fun hh => hk hh.symm
      by_cases hm : a ∈ dictKeys rest
      · simp only [dictKeys, List.map_cons] at ih ⊢
        simp only [dictKeys] at hm
        simp [dictInsert, hk, hne, hm, ih, List.mem_cons]
      · simp only [dictKeys, List.map_cons] at ih ⊢
        simp only [dictKeys] at hm
        simp [dictInsert, hk, hne, hm, ih, List.mem_cons]

theorem mem_dictKeys_insert (r : Results) (a k : String) (v : Finset Url) :
    k ∈ dictKeys (dictInsert r a v) ↔ k = a ∨ k ∈ dictKeys r := by
  rw [dictKeys_insert]
  by_cases hm : a ∈ dictKeys r
  · rw [if_pos hm]
    constructor
    · intro hx
      exact Or.inr hx
    · rintro (rfl | hx)
      · exact hm
      · exact hx
  · rw [if_neg hm]
    simp [or_comm]

theorem nodup_dictKeys_insert (r : Results) (a : String) (v : Finset Url)
    (h : (dictKeys r).Nodup) : (dictKeys (dictInsert r a v)).Nodup := by
  rw [dictKeys_insert]
  by_cases hm : a ∈ dictKeys r
  · rwa [if_pos hm]
  · rw [if_neg hm]
    simp [List.nodup_append, h, hm]

/-! ### Scan loop lemmas -/

theorem domain_routine_domain (env : Env) (d : Domain) (args : Namespace)
    (r : DomainResult) (h : domain_routine env d args = Except.ok r) :
    r.domain = d.url := by
  unfold domain_routine at h
  cases h1 : env.init_domain_tasks d args with
  | error e => simp only [h1] at h; exact Except.noConfusion h
  | ok ts =>
    simp only [h1] at h
    cases h2 : env.consume_tasks ts d with
    | error e => simp only [h2] at h; exact Except.noConfusion h
    | ok us =>
      simp only [h2] at h
      cases h3 : env.filter_urls us with
      | error e => simp only [h3] at h; exact Except.noConfusion h
      | ok fus =>
        simp only [h3, Except.ok.injEq] at h
        rw [← h]

theorem scan_step_fst (env : Env) (args : Namespace) (acc : Results × List Event)
    (d : Domain) :
    (scan_step env args acc d).1 = dictInsert acc.1 d.url (domainOutcome env args d) := by
  unfold scan_step domainOutcome
  cases h : domain_routine env d args with
  | ok r => simp [domain_routine_domain env d args r h]
  | error e => simp

theorem scan_step_snd (env : Env) (args : Namespace) (acc : Results × List Event)
    (d : Domain) :
    (scan_step env args acc d).2 = acc.2 ++
      (Event.logInfo ("running scan on " ++ d.url) ::
        (match domain_routine env d args with
         | Except.ok _ => []
         | Except.error e =>
             [Event.logError ("error scanning domain " ++ d.url ++ ": " ++ e)])) := by
  unfold scan_step
  cases h : domain_routine env d args with
  | ok r => simp
  | error e => simp

theorem dictFold_cons (env : Env) (args : Namespace) (d : Domain)
    (rest : List Domain) (init : Results) :
    dictFold env args (d :: rest) init =
      dictFold env args rest (dictInsert init d.url (domainOutcome env args d)) := rfl

theorem scan_foldl_fst (env : Env) (args : Namespace) (ds : List Domain) :
    ∀ acc : Results × List Event,
      (ds.foldl (scan_step env args) acc).1 = dictFold env args ds acc.1 := by
  induction ds with
  | nil => intro acc; rfl
  | cons d rest ih =>
    intro acc
    rw [List.foldl_cons, ih, dictFold_cons, scan_step_fst]

theorem scan_foldl_snd (env : Env) (args : Namespace) (ds : List Domain) :
    ∀ acc : Results × List Event,
      (ds.foldl (scan_step env args) acc).2 = acc.2 ++ scanEvents env args ds := by
  induction ds with
  | nil => intro acc; simp [scanEvents]
  | cons d rest ih =>
    intro acc
    rw [List.foldl_cons, ih, scan_step_snd]
    simp [scanEvents]

theorem dictFold_keys (env : Env) (args : Namespace) (ds : List Domain) :
    ∀ init : Results,
      (ds.map (fun d => d.url)).Nodup →
      (∀ d ∈ ds, d.url ∉ dictKeys init) →
      dictKeys (dictFold env args ds init) = dictKeys init ++ ds.map (fun d => d.url) := by
  induction ds with
  | nil => intro init _ _; simp [dictFold]
  | cons d rest ih =>
    intro init hnd hdisj
    rw [dictFold_cons]
    have hnotin : d.url ∉ dictKeys init := hdisj d (List.mem_cons_self d rest)
    have hkeys : dictKeys (dictInsert init d.url (domainOutcome env args d)) =
        dictKeys init ++ [d.url] := by
      rw [dictKeys_insert, if_neg hnotin]
    have hnd' : (rest.map (fun d => d.url)).Nodup := (List.nodup_cons.1 (by simpa using hnd)).2
    have hhd : d.url ∉ rest.map (fun d => d.url) := (List.nodup_cons.1 (by simpa using hnd)).1
    have hdisj' : ∀ d' ∈ rest, d'.url ∉ dictKeys (dictInsert init d.url (domainOutcome env args d)) := by
      intro d' hd'
      rw [hkeys]
      intro hmem
      rcases List.mem_append.1 hmem with hx | hx
      · exact hdisj d' (List.mem_cons_of_mem d hd') hx
      · rcases List.mem_singleton.1 hx with hx
        exact hhd (hx ▸ List.mem_map_of_mem (fun d => d.url) hd')
    rw [ih _ hnd' hdisj', hkeys]
    simp

theorem dictFold_keys_nodup (env : Env) (args : Namespace) (ds : List Domain) :
    ∀ init : Results, (dictKeys init).Nodup →
      (dictKeys (dictFold env args ds init)).Nodup := by
  induction ds with
  | nil => intro init h; exact h
  | cons d rest ih =>
    intro init h
    rw [dictFold_cons]
    exact ih _ (nodup_dictKeys_insert _ _ _ h)

theorem mem_dictFold_keys (env : Env) (args : Namespace) (ds : List Domain) :
    ∀ (init : Results) (k : String),
      k ∈ dictKeys (dictFold env args ds init) ↔
        k ∈ ds.map (fun d => d.url) ∨ k ∈ dictKeys init := by
  induction ds with
  | nil => intro init k; simp [dictFold]
  | cons d rest ih =>
    intro init k
    rw [dictFold_cons, ih]
    rw [mem_dictKeys_insert]
    simp only [List.map_cons, List.mem_cons]
    tauto

theorem lastWithUrl_cons (d : Domain) (rest : List Domain) (k : String) :
    lastWithUrl (d :: rest) k =
      match lastWithUrl rest k with
      | some d' => some d'
      | none => if d.url = k then some d else none := rfl

theorem dictFold_lookup (env : Env) (args : Namespace) (ds : List Domain) :
    ∀ (init : Results) (k : String),
      dictLookup (dictFold env args ds init) k =
        match lastWithUrl ds k with
        | some d => some (domainOutcome env args d)
        | none => dictLookup init k := by
  induction ds with
  | nil => intro init k; rfl
  | cons d rest ih =>
    intro init k
    rw [dictFold_cons, ih, lastWithUrl_cons]
    cases hl : lastWithUrl rest k with
    | some d' => rfl
    | none =>
      rw [dictLookup_insert]
      by_cases hk : d.url = k
      · simp [hk]
      · simp [hk]

theorem lastWithUrl_eq_none (ds : List Domain) (k : String)
    (h : k ∉ ds.map (fun d => d.url)) : lastWithUrl ds k = none := by
  induction ds with
  | nil => rfl
  | cons d rest ih =>
    simp only [List.map_cons, List.mem_cons] at h
    push_neg at h
    unfold lastWithUrl
    rw [ih h.2]
    rw [if_neg (fun hh => h.1 hh.symm)]

theorem lastWithUrl_of_nodup (ds : List Domain) (d : Domain)
    (hnd : (ds.map (fun d => d.url)).Nodup) (hd : d ∈ ds) :
    lastWithUrl ds d.url = some d := by
  induction ds with
  | nil => cases hd
  | cons d0 rest ih =>
    rcases List.mem_cons.1 hd with rfl | hmem
    · have hhd : d.url ∉ rest.map (fun d => d.url) :=
        (List.nodup_cons.1 (by simpa using hnd)).1
      unfold lastWithUrl
      rw [lastWithUrl_eq_none rest d.url hhd, if_pos rfl]
    · have hnd' : (rest.map (fun d => d.url)).Nodup :=
        (List.nodup_cons.1 (by simpa using hnd)).2
      unfold lastWithUrl
      rw [ih hnd' hmem]

/-! ### Scan event lemmas -/

theorem scanEvents_cons (env : Env) (args : Namespace) (d : Domain)
    (rest : List Domain) :
    scanEvents env args (d :: rest) =
      (Event.logInfo ("running scan on " ++ d.url) ::
        (match domain_routine env d args with
         | Except.ok _ => []
         | Except.error e =>
             [Event.logError ("error scanning domain " ++ d.url ++ ": " ++ e)]))
      ++ scanEvents env args rest := rfl

theorem scanEvents_error_mem (env : Env) (args : Namespace) (ds : List Domain)
    (d : Domain) (e : Err) (hd : d ∈ ds)
    (he : domain_routine env d args = Except.error e) :
    Event.logError ("error scanning domain " ++ d.url ++ ": " ++ e) ∈
      scanEvents env args ds := by
  induction ds with
  | nil => cases hd
  | cons d0 rest ih =>
    rw [scanEvents_cons]
    rcases List.mem_cons.1 hd with rfl | hmem
    · rw [he]
      simp
    · exact List.mem_append_right _ (ih hmem)

theorem scanEvents_log_only (env : Env) (args : Namespace) (ds : List Domain) :
    ∀ ev ∈ scanEvents env args ds,
      (∃ m, ev = Event.logInfo m) ∨ (∃ m, ev = Event.logError m) := by
  induction ds with
  | nil => intro ev hev; cases hev
  | cons d rest ih =>
    intro ev hev
    rw [scanEvents_cons] at hev
    rcases List.mem_append.1 hev with hx | hx
    · rcases List.mem_cons.1 hx with rfl | hx'
      · exact Or.inl ⟨_, rfl⟩
      · cases hr : domain_routine env d args with
        | ok r => rw [hr] at hx'; cases hx'
        | error e =>
          rw [hr] at hx'
          rcases List.mem_singleton.1 hx' with rfl
          exact Or.inr ⟨_, rfl⟩
    · exact ih ev hx

theorem scanEvents_filter_isDisplayed (env : Env) (args : Namespace)
    (ds : List Domain) : (scanEvents env args ds).filter isDisplayed = [] := by
  rw [List.filter_eq_nil_iff]
  intro ev hev
  rcases scanEvents_log_only env args ds ev hev with ⟨m, rfl⟩ | ⟨m, rfl⟩ <;> simp [isDisplayed]

theorem scanEvents_scan_logs_sublist (env : Env) (args : Namespace)
    (ds : List Domain) :
    (ds.map (fun d => Event.logInfo ("running scan on " ++ d.url))).Sublist
      (scanEvents env args ds) := by
  induction ds with
  | nil => simp [scanEvents]
  | cons d rest ih =>
    rw [List.map_cons, scanEvents_cons, List.cons_append]
    exact List.Sublist.cons₂ _ (ih.trans (List.sublist_append_right _ _))

/-! ### Main routine shape lemmas -/

theorem main_routine_empty_shape (env : Env) (args : Namespace)
    (h : env.read_domains args.input_file args.domain args.precision_mode = []) :
    main_routine env args =
      Except.ok ([],
        [Event.logInfo "starting main routine..",
         Event.logError "no valid domains found to scan"], args) := by
  unfold main_routine
  rw [h]
  rfl

theorem main_routine_attr_error (env : Env) (args : Namespace)
    (hne : env.read_domains args.input_file args.domain args.precision_mode ≠ [])
    (h : args.output_file = none) :
    main_routine env args = Except.error "AttributeError: output_file" := by
  unfold main_routine
  rw [h]
  rw [if_neg (by simpa [List.isEmpty_iff] using hne)]

theorem main_routine_run (env : Env) (args : Namespace) (ofv : Option OutFile)
    (h : args.output_file = some ofv)
    (hne : env.read_domains args.input_file args.domain args.precision_mode ≠ []) :
    main_routine env args =
      Except.ok
        (dictFold env { args with output_file := none }
           (env.read_domains args.input_file args.domain args.precision_mode) [],
         runEvents env args ofv,
         { args with output_file := none }) := by
  unfold main_routine
  rw [h]
  rw [if_neg (by simpa [List.isEmpty_iff] using hne)]
  have hfst := scan_foldl_fst env { args with output_file := none }
    (env.read_domains args.input_file args.domain args.precision_mode)
    ([], [Event.logInfo "starting main routine..",
          Event.logInfo ("scanning " ++
            toString (env.read_domains args.input_file args.domain args.precision_mode).length
            ++ " domain(s)")])
  have hsnd := scan_foldl_snd env { args with output_file := none }
    (env.read_domains args.input_file args.domain args.precision_mode)
    ([], [Event.logInfo "starting main routine..",
          Event.logInfo ("scanning " ++
            toString (env.read_domains args.input_file args.domain args.precision_mode).length
            ++ " domain(s)")])
  simp only [List.cons_append, List.nil_append] at hfst hsnd ⊢
  rw [hfst, hsnd]
  unfold runEvents
  simp

/-! ### Claim theorems -/

/-- C3: when the resolved domain list is empty, `main_routine` returns the
empty result mapping without raising, accompanied by an error log, and leaves
the namespace untouched. -/
theorem main_routine_empty_domains (env : Env) (args : Namespace)
    (h : env.read_domains args.input_file args.domain args.precision_mode = []) :
    main_routine env args =
      Except.ok ([],
        [Event.logInfo "starting main routine..",
         Event.logError "no valid domains found to scan"], args) :=
  main_routine_empty_shape env args h

/-- Witness for C3: a run of `main_routine` over an empty domain source
returns `{}` with the error log. -/
theorem main_routine_empty_domains_witness :
    main_routine envE argsW =
      Except.ok ([],
        [Event.logInfo "starting main routine..",
         Event.logError "no valid domains found to scan"], argsW) :=
  main_routine_empty_domains envE argsW rfl

/-- C4: a configuration with both the script and the bruteforce strategy
disabled is rejected by `validate_arguments`, and `loop` then returns the
empty result mapping for every environment — in particular without ever
invoking `main_routine` or any scan task. -/
theorem loop_rejects_disabled_strategies (args : Namespace)
    (h1 : args.no_script_mode = true) (h2 : args.no_bruteforce_mode = true) :
    (validate_arguments args).1 = false ∧
    ∀ env : Env, loop env args = Except.ok ([], (validate_arguments args).2, args) := by
  have hv : (validate_arguments args).1 = false := by
    unfold validate_arguments
    split
    · rfl
    · split
      · rfl
      · split
        · rfl
        · simp_all
  refine ⟨hv, fun env => ?_⟩
  unfold loop
  rw [if_neg (by rw [hv]; simp)]

/-- Witness for C4: the concrete configuration `argsNB` (both strategies
disabled) is rejected and yields `{}` under every environment. -/
theorem loop_rejects_disabled_strategies_witness :
    (validate_arguments argsNB).1 = false ∧
    ∀ env : Env, loop env argsNB = Except.ok ([], (validate_arguments argsNB).2, argsNB) :=
  loop_rejects_disabled_strategies argsNB rfl rfl

/-- C8: `main_routine` mutates its configuration input: on any run that
reaches the scan loop (non-empty domain list, `output_file` attribute present)
it deletes the `output_file` attribute from the passed namespace, so the
namespace handed back is not the one passed in. -/
theorem main_routine_mutates_args (env : Env) (args : Namespace) (ofv : Option OutFile)
    (h : args.output_file = some ofv)
    (hne : env.read_domains args.input_file args.domain args.precision_mode ≠ []) :
    ∃ results events args2,
      main_routine env args = Except.ok (results, events, args2) ∧
      args2.output_file = none ∧ args2 ≠ args := by
  refine ⟨_, _, _, main_routine_run env args ofv h hne, rfl, fun heq => ?_⟩
  have := congrArg Namespace.output_file heq
  simp only [h] at this
  exact Option.noConfusion this

/-- Witness for C8: the concrete single-domain run deletes the attribute. -/
theorem main_routine_mutates_args_witness :
    ∃ results events args2,
      main_routine envW argsW = Except.ok (results, events, args2) ∧
      args2.output_file = none ∧ args2 ≠ argsW :=
  main_routine_mutates_args envW argsW none rfl (by decide)

/-- C1: for every input domain list (with pairwise distinct urls, as in the
spec's totality scenario) the orchestrator's run returns a result mapping with
exactly one key per input domain; a domain whose scan raises any exception is
inserted with the empty URL set and the error is recorded in the log, and the
run is never aborted by a domain-level failure. -/
theorem main_routine_totality (env : Env) (args : Namespace) (ofv : Option OutFile)
    (h : args.output_file = some ofv)
    (hnd : ((env.read_domains args.input_file args.domain args.precision_mode).map
      (fun d => d.url)).Nodup) :
    ∃ results events args2,
      main_routine env args = Except.ok (results, events, args2) ∧
      dictKeys results =
        (env.read_domains args.input_file args.domain args.precision_mode).map
          (fun d => d.url) ∧
      ∀ d ∈ env.read_domains args.input_file args.domain args.precision_mode,
        ∀ e, domain_routine env d { args with output_file := none } = Except.error e →
          dictLookup results d.url = some ∅ ∧
          Event.logError ("error scanning domain " ++ d.url ++ ": " ++ e) ∈ events := by
  by_cases hds : env.read_domains args.input_file args.domain args.precision_mode = []
  · refine ⟨[], _, args, main_routine_empty_shape env args hds, ?_, ?_⟩
    · rw [hds]
      rfl
    · intro d hd
      rw [hds] at hd
      cases hd
  · refine ⟨_, _, _, main_routine_run env args ofv h hds, ?_, ?_⟩
    · rw [dictFold_keys env { args with output_file := none } _ [] hnd
        (by intro d _ hmem; cases hmem)]
      rfl
    · intro d hd e he
      constructor
      · rw [dictFold_lookup env { args with output_file := none } _ [] d.url,
          lastWithUrl_of_nodup _ d hnd hd]
        simp only [domainOutcome, he]
      · have hm := scanEvents_error_mem env { args with output_file := none } _ d e hd he
        unfold runEvents
        simp only [List.mem_append]
        tauto

/-- Witness for C1: a three-domain bulk run of `main_routine` in which the
middle domain fails keeps one key per domain, with the failing one empty. -/
theorem main_routine_totality_witness :
    ∃ results events args2,
      main_routine envW argsF = Except.ok (results, events, args2) ∧
      dictKeys results =
        (envW.read_domains argsF.input_file argsF.domain argsF.precision_mode).map
          (fun d => d.url) ∧
      ∀ d ∈ envW.read_domains argsF.input_file argsF.domain argsF.precision_mode,
        ∀ e, domain_routine envW d { argsF with output_file := none } = Except.error e →
          dictLookup results d.url = some ∅ ∧
          Event.logError ("error scanning domain " ++ d.url ++ ": " ++ e) ∈ events :=
  main_routine_totality envW argsF (some "out.txt") rfl (by decide)

/-- C5: domains are processed one at a time in input order (the per-domain
scan-start logs appear in the event trace in input order), and with pairwise
distinct urls the key insertion order of the returned result mapping equals
the input order. -/
theorem main_routine_input_order (env : Env) (args : Namespace) (ofv : Option OutFile)
    (h : args.output_file = some ofv)
    (hnd : ((env.read_domains args.input_file args.domain args.precision_mode).map
      (fun d => d.url)).Nodup) :
    ∃ results events args2,
      main_routine env args = Except.ok (results, events, args2) ∧
      dictKeys results =
        (env.read_domains args.input_file args.domain args.precision_mode).map
          (fun d => d.url) ∧
      ((env.read_domains args.input_file args.domain args.precision_mode).map
        (fun d => Event.logInfo ("running scan on " ++ d.url))).Sublist events := by
  by_cases hds : env.read_domains args.input_file args.domain args.precision_mode = []
  · refine ⟨[], _, args, main_routine_empty_shape env args hds, ?_, ?_⟩
    · rw [hds]
      rfl
    · rw [hds]
      exact List.nil_sublist _
  · refine ⟨_, _, _, main_routine_run env args ofv h hds, ?_, ?_⟩
    · rw [dictFold_keys env { args with output_file := none } _ [] hnd
        (by intro d _ hmem; cases hmem)]
      rfl
    · have hs := scanEvents_scan_logs_sublist env { args with output_file := none }
        (env.read_domains args.input_file args.domain args.precision_mode)
      unfold runEvents
      exact (((hs.trans (List.sublist_append_right _ _)).trans
        (List.sublist_append_left _ _)).trans
          (List.sublist_append_left _ _)).trans (List.sublist_append_left _ _)

/-- Witness for C5: the three-domain bulk run keeps keys in input order and
logs the scans in input order. -/
theorem main_routine_input_order_witness :
    ∃ results events args2,
      main_routine envW argsF = Except.ok (results, events, args2) ∧
      dictKeys results =
        (envW.read_domains argsF.input_file argsF.domain argsF.precision_mode).map
          (fun d => d.url) ∧
      ((envW.read_domains argsF.input_file argsF.domain argsF.precision_mode).map
        (fun d => Event.logInfo ("running scan on " ++ d.url))).Sublist events :=
  main_routine_input_order envW argsF (some "out.txt") rfl (by decide)

/-- C9: duplicate input urls collapse: the returned mapping's keys are
pairwise distinct, a url is a key iff it is the url of some input domain
(success and failure paths key by the same `domain.url` string), and each key
holds the outcome of the last-scanned domain with that url. -/
theorem main_routine_duplicate_domains (env : Env) (args : Namespace)
    (ofv : Option OutFile) (h : args.output_file = some ofv) :
    ∃ results events args2,
      main_routine env args = Except.ok (results, events, args2) ∧
      (dictKeys results).Nodup ∧
      (∀ k, k ∈ dictKeys results ↔
        k ∈ (env.read_domains args.input_file args.domain args.precision_mode).map
          (fun d => d.url)) ∧
      (∀ k, dictLookup results k =
        (lastWithUrl (env.read_domains args.input_file args.domain args.precision_mode) k).map
          (fun d => domainOutcome env { args with output_file := none } d)) := by
  by_cases hds : env.read_domains args.input_file args.domain args.precision_mode = []
  · refine ⟨[], _, args, main_routine_empty_shape env args hds, List.nodup_nil, ?_, ?_⟩
    · intro k
      rw [hds]
      simp [dictKeys]
    · intro k
      rw [hds]
      rfl
  · refine ⟨_, _, _, main_routine_run env args ofv h hds,
      dictFold_keys_nodup env _ _ [] List.nodup_nil, ?_, ?_⟩
    · intro k
      rw [mem_dictFold_keys]
      simp [dictKeys]
    · intro k
      rw [dictFold_lookup]
      cases hl : lastWithUrl
        (env.read_domains args.input_file args.domain args.precision_mode) k with
      | some d => rfl
      | none => rfl

/-- Witness for C9: a run whose domain source repeats `https://a.com` yields
a mapping with distinct keys holding the last occurrences' outcomes. -/
theorem main_routine_duplicate_domains_witness :
    ∃ results events args2,
      main_routine envDup argsF = Except.ok (results, events, args2) ∧
      (dictKeys results).Nodup ∧
      (∀ k, k ∈ dictKeys results ↔
        k ∈ (envDup.read_domains argsF.input_file argsF.domain argsF.precision_mode).map
          (fun d => d.url)) ∧
      (∀ k, dictLookup results k =
        (lastWithUrl (envDup.read_domains argsF.input_file argsF.domain argsF.precision_mode) k).map
          (fun d => domainOutcome envDup { argsF with output_file := none } d)) :=
  main_routine_duplicate_domains envDup argsF (some "out.txt") rfl

/-- C6: the per-domain pipeline runs in the fixed order task generation, task
consumption, result filtering, and the filtered set is inserted into the
result mapping keyed by the domain's url. -/
theorem main_routine_pipeline (env : Env) (args : Namespace) (ofv : Option OutFile)
    (d : Domain) (ts : TasksList) (us fus : Finset Url)
    (h : args.output_file = some ofv)
    (hnd : ((env.read_domains args.input_file args.domain args.precision_mode).map
      (fun d => d.url)).Nodup)
    (hd : d ∈ env.read_domains args.input_file args.domain args.precision_mode)
    (h1 : env.init_domain_tasks d { args with output_file := none } = Except.ok ts)
    (h2 : env.consume_tasks ts d = Except.ok us)
    (h3 : env.filter_urls us = Except.ok fus) :
    domain_routine env d { args with output_file := none } = Except.ok ⟨d.url, fus⟩ ∧
    ∃ results events args2,
      main_routine env args = Except.ok (results, events, args2) ∧
      dictLookup results d.url = some fus := by
  have hdr : domain_routine env d { args with output_file := none } =
      Except.ok ⟨d.url, fus⟩ := by
    unfold domain_routine
    simp only [h1, h2, h3]
  have hds : env.read_domains args.input_file args.domain args.precision_mode ≠ [] := by
    intro hnil
    rw [hnil] at hd
    cases hd
  refine ⟨hdr, _, _, _, main_routine_run env args ofv h hds, ?_⟩
  rw [dictFold_lookup env { args with output_file := none } _ [] d.url,
    lastWithUrl_of_nodup _ d hnd hd]
  simp only [domainOutcome, hdr]

/-- Witness for C6: the healthy first domain of the bulk run flows through
generation, consumption and filtering and lands under its url. -/
theorem main_routine_pipeline_witness :
    domain_routine envW ⟨"https://a.com"⟩ { argsF with output_file := none } =
      Except.ok ⟨"https://a.com", {"https://a.com/graphql"}⟩ ∧
    ∃ results events args2,
      main_routine envW argsF = Except.ok (results, events, args2) ∧
      dictLookup results "https://a.com" = some {"https://a.com/graphql"} :=
  main_routine_pipeline envW argsF (some "out.txt") ⟨"https://a.com"⟩ [⟨1⟩]
    {"https://a.com/graphql"} {"https://a.com/graphql"}
    rfl (by decide) (by decide) (by decide) (by decide) (by decide)

theorem runEvents_filter_isDisplayed (env : Env) (args : Namespace)
    (ofv : Option OutFile) :
    (runEvents env args ofv).filter isDisplayed =
      if args.quiet_mode then []
      else [Event.displayed
        (dictFold env { args with output_file := none }
          (env.read_domains args.input_file args.domain args.precision_mode) [])
        args.input_file.isSome] := by
  unfold runEvents
  cases hq : args.quiet_mode <;> cases ofv <;> cases hw : args.webhook_url <;>
    simp [List.filter_append, scanEvents_filter_isDisplayed, isDisplayed, hq, hw]

/-- C7: the quiet flag gates result display inside the run: when quiet is set
no display of results occurs, and when quiet is not set (and there is
something to scan) the printer is invoked exactly once with the final results
mapping and the bulk flag, which is set iff the domains came from an input
file. -/
theorem main_routine_display_gating (env : Env) (args : Namespace)
    (results : Results) (events : List Event) (args2 : Namespace)
    (h : main_routine env args = Except.ok (results, events, args2)) :
    (args.quiet_mode = true → events.filter isDisplayed = []) ∧
    (args.quiet_mode = false →
      env.read_domains args.input_file args.domain args.precision_mode ≠ [] →
      events.filter isDisplayed = [Event.displayed results args.input_file.isSome]) := by
  by_cases hds : env.read_domains args.input_file args.domain args.precision_mode = []
  · rw [main_routine_empty_shape env args hds] at h
    simp only [Except.ok.injEq, Prod.mk.injEq] at h
    obtain ⟨h1, h2, h3⟩ := h
    subst h1
    subst h2
    exact ⟨fun _ => rfl, fun _ hne => absurd hds hne⟩
  · cases hof : args.output_file with
    | none =>
      rw [main_routine_attr_error env args hds hof] at h
      exact Except.noConfusion h
    | some ofv =>
      rw [main_routine_run env args ofv hof hds] at h
      simp only [Except.ok.injEq, Prod.mk.injEq] at h
      obtain ⟨h1, h2, h3⟩ := h
      subst h1
      subst h2
      constructor
      · intro hq
        rw [runEvents_filter_isDisplayed, if_pos hq]
      · intro hq _
        rw [runEvents_filter_isDisplayed, if_neg (by simp [hq])]

/-- Witness for C7: the concrete non-quiet single-domain run displays its
final mapping exactly once, with the bulk flag off. -/
theorem main_routine_display_gating_witness :
    main_routine envW argsW = Except.ok
      ([("https://a.com", {"https://a.com/graphql"})],
       [Event.logInfo "starting main routine..",
        Event.logInfo "scanning 1 domain(s)",
        Event.logInfo "running scan on https://a.com",
        Event.displayed [("https://a.com", {"https://a.com/graphql"})] false,
        Event.webhookSent "https://hooks.example/x"
          [("https://a.com", {"https://a.com/graphql"})] true],
       { argsW with output_file := none }) ∧
    ([Event.logInfo "starting main routine..",
      Event.logInfo "scanning 1 domain(s)",
      Event.logInfo "running scan on https://a.com",
      Event.displayed [("https://a.com", {"https://a.com/graphql"})] false,
      Event.webhookSent "https://hooks.example/x"
        [("https://a.com", {"https://a.com/graphql"})] true].filter isDisplayed =
      [Event.displayed [("https://a.com", {"https://a.com/graphql"})]
        argsW.input_file.isSome]) := by
  have h : main_routine envW argsW = Except.ok
      ([("https://a.com", {"https://a.com/graphql"})],
       [Event.logInfo "starting main routine..",
        Event.logInfo "scanning 1 domain(s)",
        Event.logInfo "running scan on https://a.com",
        Event.displayed [("https://a.com", {"https://a.com/graphql"})] false,
        Event.webhookSent "https://hooks.example/x"
          [("https://a.com", {"https://a.com/graphql"})] true],
       { argsW with output_file := none }) := by decide
  exact ⟨h, (main_routine_display_gating envW argsW _ _ _ h).2 rfl (by decide)⟩

theorem main_routine_env_webhook (env : Env) (b : Bool) (args : Namespace) :
    (main_routine { env with webhook_delivered := b } args).map (fun out => out.1)
      = (main_routine env args).map (fun out => out.1) := by
  by_cases hds : env.read_domains args.input_file args.domain args.precision_mode = []
  · rw [main_routine_empty_shape { env with webhook_delivered := b } args hds,
      main_routine_empty_shape env args hds]
  · cases hof : args.output_file with
    | none =>
      rw [main_routine_attr_error { env with webhook_delivered := b } args hds hof,
        main_routine_attr_error env args hds hof]
    | some ofv =>
      rw [main_routine_run { env with webhook_delivered := b } args ofv hof hds,
        main_routine_run env args ofv hof hds]
      rfl

/-- C2: the webhook notifier is fire-and-forget (modelled from the spec:
`send_webhook` never raises): the result mapping returned by `main_routine`
is the same whether webhook delivery succeeds or fails, for every destination
and configuration. -/
theorem main_routine_webhook_fire_and_forget (env : Env) (b₁ b₂ : Bool)
    (args : Namespace) :
    (main_routine { env with webhook_delivered := b₁ } args).map (fun out => out.1)
      = (main_routine { env with webhook_delivered := b₂ } args).map (fun out => out.1) :=
  (main_routine_env_webhook env b₁ args).trans
    (main_routine_env_webhook env b₂ args).symm

theorem main_routine_env_write (env : Env) (μ : Results → Results)
    (args : Namespace) :
    (main_routine { env with write_results_mut := μ } args).map (fun out => out.1)
      = (main_routine env args).map (fun out => out.1) := by
  by_cases hds : env.read_domains args.input_file args.domain args.precision_mode = []
  · rw [main_routine_empty_shape { env with write_results_mut := μ } args hds,
      main_routine_empty_shape env args hds]
  · cases hof : args.output_file with
    | none =>
      rw [main_routine_attr_error { env with write_results_mut := μ } args hds hof,
        main_routine_attr_error env args hds hof]
    | some ofv =>
      rw [main_routine_run { env with write_results_mut := μ } args ofv hof hds,
        main_routine_run env args ofv hof hds]
      rfl

theorem scanEvents_not_wroteFile (env : Env) (args : Namespace) (ds : List Domain)
    (f : OutFile) (w : Results) : Event.wroteFile f w ∉ scanEvents env args ds := by
  intro hmem
  rcases scanEvents_log_only env args ds _ hmem with ⟨m, hm⟩ | ⟨m, hm⟩ <;>
    exact Event.noConfusion hm

theorem scanEvents_not_webhookSent (env : Env) (args : Namespace) (ds : List Domain)
    (u : String) (p : Results) (b : Bool) :
    Event.webhookSent u p b ∉ scanEvents env args ds := by
  intro hmem
  rcases scanEvents_log_only env args ds _ hmem with ⟨m, hm⟩ | ⟨m, hm⟩ <;>
    exact Event.noConfusion hm

theorem runEvents_wroteFile_mem (env : Env) (args : Namespace) (ofv : Option OutFile)
    (f : OutFile) (w : Results)
    (hmem : Event.wroteFile f w ∈ runEvents env args ofv) :
    w = env.write_results_mut (dictCopy (dictFold env { args with output_file := none }
      (env.read_domains args.input_file args.domain args.precision_mode) [])) := by
  unfold runEvents at hmem
  simp only [List.mem_append] at hmem
  rcases hmem with ((((hx | hx) | hx) | hx) | hx)
  · simp at hx
  · exact absurd hx (scanEvents_not_wroteFile _ _ _ _ _)
  · cases hq : args.quiet_mode <;> rw [hq] at hx <;> simp at hx
  · cases ofv with
    | none => simp at hx
    | some fx =>
      simp only [List.mem_singleton, Event.wroteFile.injEq] at hx
      exact hx.2
  · cases hw : args.webhook_url <;> rw [hw] at hx <;> simp at hx

theorem runEvents_webhookSent_mem (env : Env) (args : Namespace) (ofv : Option OutFile)
    (u : String) (p : Results) (b : Bool)
    (hmem : Event.webhookSent u p b ∈ runEvents env args ofv) :
    p = dictFold env { args with output_file := none }
      (env.read_domains args.input_file args.domain args.precision_mode) [] := by
  unfold runEvents at hmem
  simp only [List.mem_append] at hmem
  rcases hmem with ((((hx | hx) | hx) | hx) | hx)
  · simp at hx
  · exact absurd hx (scanEvents_not_webhookSent _ _ _ _ _ _)
  · cases hq : args.quiet_mode <;> rw [hq] at hx <;> simp at hx
  · cases ofv with
    | none => simp at hx
    | some fx => simp at hx
  · cases hw : args.webhook_url with
    | none => rw [hw] at hx; simp at hx
    | some ux =>
      rw [hw] at hx
      simp only [List.mem_singleton, Event.webhookSent.injEq] at hx
      exact hx.2.1

/-- C10: the file-writer sink only ever sees a shallow copy of the results
mapping — whatever in-place key mutation it performs, the mapping returned by
`main_routine` is unchanged, and the written payload is the writer's mutation
of the copy — whereas the webhook sink receives the original mapping itself:
its payload is exactly the mapping `main_routine` returns. -/
theorem main_routine_sink_isolation (env : Env) (μ : Results → Results)
    (args : Namespace) :
    ((main_routine { env with write_results_mut := μ } args).map (fun out => out.1)
       = (main_routine env args).map (fun out => out.1)) ∧
    (∀ results events args2,
      main_routine env args = Except.ok (results, events, args2) →
      (∀ f w, Event.wroteFile f w ∈ events →
        w = env.write_results_mut (dictCopy results)) ∧
      (∀ u p b, Event.webhookSent u p b ∈ events → p = results)) := by
  refine ⟨main_routine_env_write env μ args, ?_⟩
  intro results events args2 h
  by_cases hds : env.read_domains args.input_file args.domain args.precision_mode = []
  · rw [main_routine_empty_shape env args hds] at h
    simp only [Except.ok.injEq, Prod.mk.injEq] at h
    obtain ⟨h1, h2, h3⟩ := h
    subst h1
    subst h2
    constructor
    · intro f w hm
      simp at hm
    · intro u p b hm
      simp at hm
  · cases hof : args.output_file with
    | none =>
      rw [main_routine_attr_error env args hds hof] at h
      exact Except.noConfusion h
    | some ofv =>
      rw [main_routine_run env args ofv hof hds] at h
      simp only [Except.ok.injEq, Prod.mk.injEq] at h
      obtain ⟨h1, h2, h3⟩ := h
      subst h1
      subst h2
      exact ⟨fun f w hm => runEvents_wroteFile_mem env args ofv f w hm,
             fun u p b hm => runEvents_webhookSent_mem env args ofv u p b hm⟩

/-- Witness for C10: instantiation at the concrete bulk run with a writer
that empties its dict. -/
theorem main_routine_sink_isolation_witness :
    ((main_routine { envW with write_results_mut := fun _ => [] } argsF).map
        (fun out => out.1)
      = (main_routine envW argsF).map (fun out => out.1)) ∧
    (∀ results events args2,
      main_routine envW argsF = Except.ok (results, events, args2) →
      (∀ f w, Event.wroteFile f w ∈ events →
        w = envW.write_results_mut (dictCopy results)) ∧
      (∀ u p b, Event.webhookSent u p b ∈ events → p = results)) :=
  main_routine_sink_isolation envW (fun _ => []) argsF
